import Mathlib

/-!
Shallow embedding of the jolly_scraper repository (scoring.py, pipelines.py,
jolly_selenium.py, spiders/jolly_spider.py) and proofs about it.

Strings are modelled as `List Char`; Python floats are modelled as exact
rationals (every numeric literal in the source is an exact decimal, and the
claims under scrutiny concern exactly representable values); Python
exceptions are modelled with `Except`.
-/

namespace JollyScraper

/-- A Python string, modelled as its list of characters. -/
abbrev Str := List Char

/-- Convenience conversion from a Lean string literal to the model type. -/
def chars (s : String) : Str := s.data

/-- Model of the whitespace characters recognised by Python `str.strip()`
(the ASCII whitespace characters, which are the only ones the scraped
inputs can contain). -/
def isSpaceC (c : Char) : Bool :=
  c = ' ' ∨ c = '\t' ∨ c = '\n' ∨ c = '\r' ∨ c = '\x0b' ∨ c = '\x0c'

/-- Model of Python `str.strip()`: remove leading and trailing whitespace. -/
def pyStrip (s : Str) : Str :=
  ((s.dropWhile isSpaceC).reverse.dropWhile isSpaceC).reverse

/-- Model of Python `str.lower()` on one character, covering ASCII letters and
the Turkish letters occurring in the scraped vocabulary.  Like Python
(which is not locale aware here), it maps `'I'` to `'i'` and maps `'İ'`
to the two code points `"i"` followed by U+0307 COMBINING DOT ABOVE. -/
def pyLowerChar (c : Char) : Str :=
  if 'A' ≤ c ∧ c ≤ 'Z' then [Char.ofNat (c.toNat + 32)]
  else if c = 'Ç' then ['ç']
  else if c = 'Ğ' then ['ğ']
  else if c = 'İ' then ['i', Char.ofNat 0x0307]
  else if c = 'Ö' then ['ö']
  else if c = 'Ş' then ['ş']
  else if c = 'Ü' then ['ü']
  else [c]

/-- Model of Python `str.lower()` on a whole string. -/
def pyLower (s : Str) : Str := (s.map pyLowerChar).flatten

/-- Boolean test that `p` is an initial segment of `s`. -/
def startsWithL : Str → Str → Bool
  | [], _ => true
  | _ :: _, [] => false
  | p :: ps, c :: rest => p = c && startsWithL ps rest

/-- Model of the Python substring test `needle in hay`. -/
def containsSub (needle : Str) : Str → Bool
  | [] => startsWithL needle []
  | c :: rest => startsWithL needle (c :: rest) || containsSub needle rest

/-- Model of the call `price_str.replace(" TL", "")` in `parse_price`
(scoring.py line 17): delete every non-overlapping occurrence of the
three characters `" TL"`, scanning left to right. -/
def removeTL : Str → Str
  | [] => []
  | [c] => [c]
  | [c, d] => [c, d]
  | c :: d :: e :: rest =>
    if c = ' ' ∧ d = 'T' ∧ e = 'L' then removeTL rest
    else c :: removeTL (d :: e :: rest)

/-- Model of `price_str.replace(",", ".")` (scoring.py line 20). -/
def commaToDot (s : Str) : Str := s.map fun c => if c = ',' then '.' else c

/-- Model of Python `str.split(sep)` for a one-character separator
(`price_str.split(".")` at scoring.py line 23, `features_str.split(",")`
at scoring.py line 61): split at every occurrence, keeping empty pieces;
the result is always non-empty. -/
def splitOnC (sep : Char) : Str → List Str
  | [] => [[]]
  | c :: rest =>
    match splitOnC sep rest with
    | [] => [[c]]
    | h :: t => if c = sep then [] :: h :: t else (c :: h) :: t

/-- Numeric value of one decimal digit character. -/
def digitVal (c : Char) : ℕ := c.toNat - '0'.toNat

/-- Numeric value of a string of decimal digits (most significant first). -/
def digitsVal (s : Str) : ℕ := s.foldl (fun acc c => 10 * acc + digitVal c) 0

/-- Sign factor read by Python `float()` from an optional leading sign. -/
def sgnOf (t : Str) : ℚ := if t.headD ' ' = '-' then -1 else 1

/-- Drop an optional leading sign character, as Python `float()` does. -/
def dropSign (t : Str) : Str :=
  if t.headD ' ' = '-' ∨ t.headD ' ' = '+' then t.tail else t

/-- Model of the Python built-in `float(s)` (scoring.py line 33) on its
accepting grammar: optional surrounding whitespace, optional sign, a
mantissa `digits`, `digits.digits?` or `.digits`, and an optional
exponent part.  Returns `none` where `float()` raises `ValueError`.
(The `inf`/`nan` spellings and digit-group underscores accepted by
Python never occur in this program's inputs and are not modelled.) -/
def parseFloat (s : Str) : Option ℚ :=
  let t := pyStrip s
  let sg := sgnOf t
  let t1 := dropSign t
  let ip := t1.takeWhile Char.isDigit
  let t2 := t1.dropWhile Char.isDigit
  let fp := if t2.headD ' ' = '.' then t2.tail.takeWhile Char.isDigit else []
  let t3 := if t2.headD ' ' = '.' then t2.tail.dropWhile Char.isDigit else t2
  if ip = [] ∧ fp = [] then none
  else
    let mant : ℚ := (digitsVal ip : ℚ) + (digitsVal fp : ℚ) / (10 : ℚ) ^ fp.length
    if t3 = [] then some (sg * mant)
    else if t3.headD ' ' = 'e' ∨ t3.headD ' ' = 'E' then
      let esg : ℤ := if t3.tail.headD ' ' = '-' then -1 else 1
      let r := dropSign t3.tail
      let ed := r.takeWhile Char.isDigit
      if ed = [] ∨ r.dropWhile Char.isDigit ≠ [] then none
      else some (sg * mant * (10 : ℚ) ^ (esg * (digitsVal ed : ℤ)))
    else none

/-- The string handed to `float()` by `parse_price` (scoring.py lines 17-30):
strip `" TL"`, turn commas into dots, split on dots, and when there are
several segments re-join all but the last (thousands groups) followed by
a single dot and the last segment. -/
def cleaned_price (price_str : Str) : Str :=
  let s1 := pyStrip (removeTL price_str)
  let s2 := commaToDot s1
  let parts := splitOnC '.' s2
  if parts.length > 1 then parts.dropLast.flatten ++ '.' :: (parts.getLast?.getD [])
  else parts.head?.getD []

/-- Model of `parse_price` (scoring.py lines 6-35).  The leading falsy test
`if not price_str` is the empty-string test; the `try/except ValueError`
around `float()` becomes the `Option` match. -/
def parse_price (price_str : Str) : ℚ :=
  if price_str = [] then 0
  else
    match parseFloat (cleaned_price price_str) with
    | some q => q
    | none => 0

/-- Model of `float()` with its `ValueError` made explicit. -/
def floatOrError (s : Str) : Except Unit ℚ :=
  match parseFloat s with
  | some q => .ok q
  | none => .error ()

/-- Model of `parse_price` with exception propagation made explicit: the
`try` block returns `float(cleaned_str)` and the `except ValueError`
handler returns `0.0`; any uncaught exception would surface as
`Except.error`. -/
def parse_price_exc (price_str : Str) : Except Unit ℚ :=
  if price_str = [] then .ok 0
  else
    match floatOrError (cleaned_price price_str) with
    | .ok q => .ok q
    | .error _ => .ok 0

/-- A hotel record as produced by `JollySpider.parse_hotel_details`
(jolly_spider.py lines 243-254) and consumed by scoring.py.  Fields
that the spider may set to `None` are `Option`; the rest are strings
(`dict.get` with a `""` default in scoring.py always finds them). -/
structure Hotel where
  detail_page_url : Str := []
  hotel_name : Option Str := none
  price : Str := []
  location : Option Str := none
  accommodation_types : Str := []
  checkin_time : Option Str := none
  checkout_time : Option Str := none
  hotel_features : Str := []
  cancel_policy : Str := []
  recomended_hotel : Option Str := none
deriving DecidableEq

/-- Model of `compute_base_score` (scoring.py lines 38-77), with Python
floats as exact rationals (`0.05 = 1/20`, `1.5 = 3/2`, `0.3 = 3/10`). -/
def compute_base_score (hotel : Hotel) : ℚ :=
  let base0 : ℚ := 0
  let base1 :=
    if containsSub (chars "Risksiz rezervasyon") hotel.cancel_policy then base0 + 1 else base0
  let base2 := if hotel.recomended_hotel.isSome then base1 + 1 else base1
  let base3 :=
    if hotel.hotel_features ≠ [] then
      base2 + (1 / 20 : ℚ) * ((splitOnC ',' hotel.hotel_features).map pyStrip).length
    else base2
  let accom := pyLower (pyStrip hotel.accommodation_types)
  if containsSub (chars "ultra her şey dahil") accom then base3 + 2
  else if containsSub (chars "her şey dahil") accom then base3 + 3 / 2
  else if containsSub (chars "yarım pansiyon") accom then base3 + 1
  else if containsSub (chars "oda kahvaltı") accom then base3 + 1 / 2
  else if containsSub (chars "sadece oda") accom then base3 + 3 / 10
  else base3

/-- Model of `compute_final_score` (scoring.py lines 80-94). -/
def compute_final_score (hotel : Hotel) : ℚ :=
  let price_val := parse_price hotel.price
  let base_score := compute_base_score hotel
  let price_val' := if price_val ≤ 0 then 1 else price_val
  base_score / price_val'

/-- A hotel together with its computed `final_score` field, as added by
`ScorePipeline.close_spider` (pipelines.py lines 52-54). -/
abbrev ScoredHotel := Hotel × ℚ

/-- The score-annotation pass of `close_spider` (pipelines.py lines 52-54). -/
def score_all (hotels : List Hotel) : List ScoredHotel :=
  hotels.map fun h => (h, compute_final_score h)

/-- The comparison handed to the sort in `close_spider`: Python
`sorted(key=final_score, reverse=True)` is a stable sort under the
inverted comparison, i.e. `a` may precede `b` iff `b.final_score ≤
a.final_score`. -/
def sortLe (a b : ScoredHotel) : Bool := decide (b.2 ≤ a.2)

/-- Model of the in-memory part of `ScorePipeline.close_spider`
(pipelines.py lines 40-64): score every accumulated hotel, stable-sort
descending by final score, keep the first 10.  (The JSON write at lines
66-70 is file I/O and outside the model.) -/
def close_spider (hotels : List Hotel) : List ScoredHotel :=
  ((score_all hotels).mergeSort sortLe).take 10

/-- The month/year header of the date-picker calendar as read in
`select_dates` (jolly_selenium.py lines 113-120). -/
structure CalHeader where
  month : Str
  year : Str
deriving DecidableEq

/-- Model of the `while True` month-paging loop of `select_dates`
(jolly_selenium.py lines 112-129).  `cal n` is the header shown after
`n` clicks of the next-month arrow (the arrow is assumed clickable, as
the loop itself assumes); `fuel` bounds the number of iterations we
observe, `i` is the number of clicks performed so far.  The result is
`some n` when the loop breaks after exactly `n` clicks, `none` when it
is still running when the fuel runs out. -/
def select_dates_loop (cal : ℕ → CalHeader) (target_month target_year : Str) :
    ℕ → ℕ → Option ℕ
  | 0, _ => none
  | fuel + 1, i =>
    if (cal i).month = target_month ∧ (cal i).year = target_year then some i
    else select_dates_loop cal target_month target_year fuel (i + 1)

/-- Scroll-loop helper of `scroll_until_element_visible`
(jolly_selenium.py lines 258-262): starting from `count` scroll steps
already taken, keep scrolling while the element is not in the viewport
and fewer than `fuel` further steps remain; returns the final count. -/
def scrollGo (inView : ℕ → Bool) : ℕ → ℕ → ℕ
  | 0, count => count
  | fuel + 1, count => if inView count then count else scrollGo inView fuel (count + 1)

/-- Model of `scroll_until_element_visible` (jolly_selenium.py lines
247-266).  `found` is whether the initial `find_element` succeeds (its
`except` returns `None`); `inView n` is whether the element is in the
viewport after `n` scroll steps of `scroll_step` pixels.  Returns
`some` of the scroll count at which the element became visible, or
`none` when the element was never found or never became visible within
`max_scrolls` attempts.  `scroll_step` only fixes the pixel distance of
one step and does not otherwise enter the model. -/
def scroll_until_element_visible (found : Bool) (inView : ℕ → Bool)
    (scroll_step : ℕ) (max_scrolls : ℕ) : Option ℕ :=
  if found then
    let final := scrollGo inView max_scrolls 0
    if inView final then some final else none
  else none

/-- The completion phrase tested at jolly_selenium.py line 279. -/
def completionPhrase : Str := chars "tamamını görüntülediniz"

/-- The page behaviour seen by one run of
`scroll_and_click_until_all_displayed`, indexed by loop iteration `i`:
whether the status element is found, whether it is in the viewport
after `n` scrolls, its text, and whether the load-more click succeeds. -/
structure LoaderEnv where
  found : ℕ → Bool
  inView : ℕ → ℕ → Bool
  text : ℕ → Str
  clickOk : ℕ → Bool

/-- Model of the `while True` loop of
`scroll_and_click_until_all_displayed` (jolly_selenium.py lines
268-293), with the source's fixed `scroll_step=550`, `max_scrolls=50`.
`i` is the iteration index, `clicks` the number of successful
load-more clicks so far.  `some clicks` means the loop broke (status
unreachable, completion phrase seen, or click failed) after `clicks`
activations; `none` means the fuel ran out first. -/
def scroll_and_click_until_all_displayed (env : LoaderEnv) : ℕ → ℕ → ℕ → Option ℕ
  | 0, _, _ => none
  | fuel + 1, i, clicks =>
    match scroll_until_element_visible (env.found i) (env.inView i) 550 50 with
    | none => some clicks
    | some _ =>
      let status_text := pyLower (pyStrip (env.text i))
      if containsSub completionPhrase status_text then some clicks
      else if env.clickOk i then
        scroll_and_click_until_all_displayed env fuel (i + 1) (clicks + 1)
      else some clicks

/-- The exceptions relevant to `parse_hotel_details`: a `WebDriverWait`
timeout from the price wait, and `NoSuchElementException` from an
unguarded `find_element`. -/
inductive ScrapeError where
  | timeoutException : ScrapeError
  | noSuchElementException : ScrapeError
deriving DecidableEq

/-- Scanner behind `stripTags`, written with explicit fuel so that it is
structurally recursive (each step consumes at least one character, so
fuel equal to the string length always suffices).  At each `<` that is
followed by a later `>`, everything through that first `>` is dropped;
a `<` with no later `>` matches no tag, and then neither can anything
after it, so the rest is kept verbatim. -/
def stripTagsGo : ℕ → Str → Str
  | 0, s => s
  | _ + 1, [] => []
  | fuel + 1, c :: rest =>
    if c = '<' then
      let after := rest.dropWhile fun d => ¬d = '>'
      if after = [] then c :: rest
      else stripTagsGo fuel after.tail
    else c :: stripTagsGo fuel rest

/-- Model of `re.sub(r"<[^>]*>", "", s)` (jolly_spider.py lines 176-177):
delete every `<`...`>` span, scanning left to right. -/
def stripTags (s : Str) : Str := stripTagsGo s.length s

/-- Model of Python `sep.join` as used at jolly_spider.py line 237. -/
def joinSep (sep : Str) : List Str → Str
  | [] => []
  | [x] => x
  | x :: xs => x ++ sep ++ joinSep sep xs

/-- What one hotel detail page offers to `parse_hotel_details`, element
by element.  `price = none` means the price element never appears
within the bounded wait (the wait raises); `cancelElem = none` means
the cancellation badge is missing (`find_element` raises);
`recommendElem = none` means the recommendation block is missing (the
guarded lookup); the inner `Option`s are `get_attribute` results,
which may be null. -/
structure DetailPage where
  price : Option Str := some []
  cancelElem : Option (Option Str) := some (some [])
  recommendElem : Option (Option Str) := none
  generalTab : Bool := true
  hotel_name : Option Str := none
  location : Option Str := none
  accomFragments : List Str := []
  checkin_time : Option Str := none
  checkout_time : Option Str := none
  featureFragments : List Str := []
  url : Str := []
deriving DecidableEq

/-- Model of `JollySpider.parse_hotel_details` (jolly_spider.py lines
143-254).  The unguarded price wait (line 161) and the unguarded
cancellation-badge lookup (line 171) surface as `Except.error`; the
guarded recommendation lookup (lines 180-187) degrades to `None`; the
guarded general-info tab click (lines 189-198) returns without a
record (`ok none`).  Accommodation and feature texts are joined as at
lines 218-219 and 237-238. -/
def parse_hotel_details (page : DetailPage) : Except ScrapeError (Option Hotel) :=
  match page.price with
  | none => .error .timeoutException
  | some price =>
    match page.cancelElem with
    | none => .error .noSuchElementException
    | some cancelAttr =>
      let cancel_policy := pyStrip (stripTags (cancelAttr.getD []))
      let recomended_hotel : Option Str :=
        match page.recommendElem with
        | none => none
        | some a => a
      if page.generalTab then
        .ok (some
          { detail_page_url := page.url
            hotel_name := page.hotel_name.map pyStrip
            price := price
            location := page.location
            accommodation_types :=
              ((page.accomFragments.map pyStrip).filter fun t => decide (t ≠ [])).flatten
            checkin_time := page.checkin_time
            checkout_time := page.checkout_time
            hotel_features :=
              joinSep (chars ", ")
                ((page.featureFragments.map pyStrip).filter fun t => decide (t ≠ []))
            cancel_policy := cancel_policy
            recomended_hotel := recomended_hotel })
      else .ok none

/-- Model of the detail-extraction loop in `JollySpider.parse`
(jolly_spider.py lines 133-137): visit each page in order, skip pages
whose extraction returned nothing, and propagate any uncaught
exception, which abandons all remaining pages. -/
def parse_details_loop : List DetailPage → Except ScrapeError (List Hotel)
  | [] => .ok []
  | p :: rest =>
    match parse_hotel_details p with
    | .error e => .error e
    | .ok none => parse_details_loop rest
    | .ok (some h) =>
      match parse_details_loop rest with
      | .error e => .error e
      | .ok hs => .ok (h :: hs)

/-- A detail page whose price element never appears: the wait at
jolly_spider.py line 161 raises `TimeoutException`. -/
def pageTimeout : DetailPage :=
  { price := none
    cancelElem := some (some (chars "Policy"))
    url := chars "/hotel-1" }

/-- A detail page on which every lookup succeeds. -/
def pageGood : DetailPage :=
  { price := some (chars "100,00 TL")
    cancelElem := some (some (chars "Risksiz rezervasyon"))
    recommendElem := some (some (chars "yes"))
    generalTab := true
    hotel_name := some (chars "Hotel Two")
    featureFragments := [chars "Wifi", chars "Pool"]
    url := chars "/hotel-2" }

/-- A detail page whose "Genel Bilgiler" tab is missing: the guarded
click at jolly_spider.py lines 189-198 returns without a record. -/
def pageNoTab : DetailPage :=
  { price := some (chars "50,00 TL")
    cancelElem := some (some (chars "Policy"))
    generalTab := false
    url := chars "/hotel-3" }



/-- A list none of whose elements satisfies `p` is untouched by `dropWhile`. -/
lemma dropWhile_of_all_false {p : Char → Bool} :
    ∀ {s : Str}, (∀ c ∈ s, p c = false) → s.dropWhile p = s
  | [], _ => rfl
  | c :: rest, h => by
    have hc := h c (by simp)
    simp [List.dropWhile, hc]

/-- A string with no whitespace characters is untouched by `pyStrip`. -/
lemma pyStrip_of_no_space {s : Str} (h : ∀ c ∈ s, isSpaceC c = false) :
    pyStrip s = s := by
  unfold pyStrip
  rw [dropWhile_of_all_false h]
  rw [dropWhile_of_all_false fun c hc => h c (List.mem_reverse.mp hc)]
  exact s.reverse_reverse

/-- The `" TL"` deletion does nothing at a head character that is not a space. -/
lemma removeTL_cons {c : Char} (hc : ¬c = ' ') :
    ∀ s : Str, removeTL (c :: s) = c :: removeTL s
  | [] => by simp [removeTL]
  | [d] => by simp [removeTL]
  | d :: e :: t => by
    simp only [removeTL]
    rw [if_neg]
    rintro ⟨h1, h2⟩
    exact hc h1

/-- Appending `" TL"` to a space-free string and then deleting `" TL"`
occurrences recovers the string. -/
lemma removeTL_append {s : Str} (h : ∀ c ∈ s, ¬c = ' ') :
    removeTL (s ++ [' ', 'T', 'L']) = s := by
  induction s with
  | nil => decide
  | cons c rest ih =>
    rw [List.cons_append, removeTL_cons (h c (by simp))]
    rw [ih fun d hd => h d (by simp [hd])]

/-- Comma-to-dot conversion does nothing on a comma-free string. -/
lemma commaToDot_of_no_comma {s : Str} (h : ∀ c ∈ s, ¬c = ',') :
    commaToDot s = s := by
  unfold commaToDot
  induction s with
  | nil => rfl
  | cons c rest ih =>
    simp only [List.map_cons, if_neg (h c (by simp))]
    rw [ih fun d hd => h d (by simp [hd])]

/-- Python `str.split` never returns an empty list of pieces. -/
lemma splitOnC_ne_nil (sep : Char) : ∀ s : Str, splitOnC sep s ≠ []
  | [] => by simp [splitOnC]
  | c :: rest => by
    rcases hsp : splitOnC sep rest with _ | ⟨h0, t0⟩ <;> simp [splitOnC, hsp] <;> split <;> simp

/-- Splitting a separator-free string yields the one-piece list. -/
lemma splitOnC_no_sep {sep : Char} :
    ∀ {s : Str}, (∀ c ∈ s, ¬c = sep) → splitOnC sep s = [s]
  | [], _ => rfl
  | c :: rest, h => by
    have ih := splitOnC_no_sep fun d hd => h d (List.mem_cons_of_mem c hd)
    simp [splitOnC, ih, if_neg (h c (by simp))]

/-- Splitting peels off a separator-free prefix before the first separator. -/
lemma splitOnC_append {sep : Char} :
    ∀ (a r : Str), (∀ c ∈ a, ¬c = sep) →
      splitOnC sep (a ++ sep :: r) = a :: splitOnC sep r
  | [], r, _ => by
    rcases hsp : splitOnC sep r with _ | ⟨h0, t0⟩
    · exact absurd hsp (splitOnC_ne_nil sep r)
    · simp [splitOnC, hsp]
  | x :: a', r, h => by
    have ih := splitOnC_append a' r fun d hd => h d (List.mem_cons_of_mem x hd)
    simp [splitOnC, ih, if_neg (h x (by simp))]

/-- The number of split pieces is the separator count plus one. -/
lemma length_splitOnC (sep : Char) :
    ∀ s : Str, (splitOnC sep s).length = s.count sep + 1
  | [] => by simp [splitOnC]
  | c :: rest => by
    have ih := length_splitOnC sep rest
    rcases hsp : splitOnC sep rest with _ | ⟨h0, t0⟩
    · exact absurd hsp (splitOnC_ne_nil sep rest)
    · rw [hsp] at ih
      by_cases hc : c = sep
      · subst hc
        simp [splitOnC, hsp, List.count_cons, ← ih]
      · simp [splitOnC, hsp, List.count_cons, hc, ← ih, Ne.symm hc]

/-- takeWhile takes all of an all-true prefix up to the first failing element. -/
lemma takeWhile_append_cons {p : Char → Bool} {x : Char} (hx : p x = false) :
    ∀ (d r : Str), (∀ c ∈ d, p c = true) →
      (d ++ x :: r).takeWhile p = d
  | [], r, _ => by simp [List.takeWhile, hx]
  | c :: d', r, h => by
    have := takeWhile_append_cons hx d' r fun e he => h e (List.mem_cons_of_mem c he)
    simp [List.takeWhile, h c (by simp), this]

/-- dropWhile drops exactly an all-true prefix up to the first failing element. -/
lemma dropWhile_append_cons {p : Char → Bool} {x : Char} (hx : p x = false) :
    ∀ (d r : Str), (∀ c ∈ d, p c = true) →
      (d ++ x :: r).dropWhile p = x :: r
  | [], r, _ => by simp [List.dropWhile, hx]
  | c :: d', r, h => by
    have := dropWhile_append_cons hx d' r fun e he => h e (List.mem_cons_of_mem c he)
    simp [List.dropWhile, h c (by simp), this]

/-- takeWhile keeps an all-true list whole. -/
lemma takeWhile_all {p : Char → Bool} :
    ∀ (d : Str), (∀ c ∈ d, p c = true) → d.takeWhile p = d
  | [], _ => rfl
  | c :: d', h => by
    have := takeWhile_all d' fun e he => h e (List.mem_cons_of_mem c he)
    simp [List.takeWhile, h c (by simp), this]

/-- dropWhile empties an all-true list. -/
lemma dropWhile_all {p : Char → Bool} :
    ∀ (d : Str), (∀ c ∈ d, p c = true) → d.dropWhile p = []
  | [], _ => rfl
  | c :: d', h => by
    have := dropWhile_all d' fun e he => h e (List.mem_cons_of_mem c he)
    simp [List.dropWhile, h c (by simp), this]

/-- Decimal digits are not whitespace. -/
lemma isDigit_not_space {c : Char} (h : c.isDigit = true) : isSpaceC c = false := by
  unfold isSpaceC
  simp only [decide_eq_false_iff_not]
  rintro (rfl | rfl | rfl | rfl | rfl | rfl) <;> simp_all [Char.isDigit]

/-- A digit is distinct from any non-digit character. -/
lemma ne_of_isDigit {c x : Char} (h : c.isDigit = true) (hx : x.isDigit = false) :
    ¬c = x := by
  rintro rfl
  rw [h] at hx
  cases hx


lemma digit_facts {c : Char} (h : c.isDigit = true) :
    ¬c = '-' ∧ ¬c = '+' ∧ ¬c = '.' ∧ ¬c = ',' ∧ isSpaceC c = false :=
  ⟨ne_of_isDigit h (by decide), ne_of_isDigit h (by decide),
   ne_of_isDigit h (by decide), ne_of_isDigit h (by decide), isDigit_not_space h⟩

lemma parseFloat_digits :
    ∀ {d : Str}, d ≠ [] → (∀ c ∈ d, c.isDigit = true) →
      parseFloat d = some (digitsVal d)
  | [], hd, _ => absurd rfl hd
  | x :: d', _, h => by
    have hx := h x (by simp)
    have hstrip : pyStrip (x :: d') = x :: d' :=
      pyStrip_of_no_space fun c hc => isDigit_not_space (h c hc)
    have hsg : sgnOf (x :: d') = 1 := by
      unfold sgnOf
      rw [List.headD_cons, if_neg (digit_facts hx).1]
    have hds : dropSign (x :: d') = x :: d' := by
      unfold dropSign
      rw [List.headD_cons, if_neg]
      rintro (h1 | h1)
      · exact (digit_facts hx).1 h1
      · exact (digit_facts hx).2.1 h1
    simp only [parseFloat, hstrip, hsg, hds, takeWhile_all _ h, dropWhile_all _ h,
      List.headD_nil]
    rw [if_neg (by decide : ¬(' ' = '.'))]
    rw [if_neg (by decide : ¬(' ' = '.'))]
    rw [if_neg (by simp : ¬((x :: d' : Str) = [] ∧ ([] : Str) = []))]
    rw [if_pos rfl]
    have h0 : digitsVal ([] : Str) = 0 := rfl
    rw [h0]
    norm_num

lemma parseFloat_digits_dot :
    ∀ {d f : Str}, d ≠ [] → f ≠ [] →
      (∀ c ∈ d, c.isDigit = true) → (∀ c ∈ f, c.isDigit = true) →
      parseFloat (d ++ '.' :: f) =
        some ((digitsVal d : ℚ) + (digitsVal f : ℚ) / (10 : ℚ) ^ f.length)
  | [], _, hd, _, _, _ => absurd rfl hd
  | x :: d', f, _, hf, h, hfd => by
    have hx := h x (by simp)
    have hstrip : pyStrip ((x :: d') ++ '.' :: f) = (x :: d') ++ '.' :: f := by
      apply pyStrip_of_no_space
      intro c hc
      rcases List.mem_append.mp hc with hc | hc
      · exact isDigit_not_space (h c hc)
      · rcases List.mem_cons.mp hc with rfl | hc
        · decide
        · exact isDigit_not_space (hfd c hc)
    have hsg : sgnOf ((x :: d') ++ '.' :: f) = 1 := by
      unfold sgnOf
      rw [List.cons_append, List.headD_cons, if_neg (digit_facts hx).1]
    have hds : dropSign ((x :: d') ++ '.' :: f) = (x :: d') ++ '.' :: f := by
      unfold dropSign
      rw [List.cons_append, List.headD_cons, if_neg]
      rintro (h1 | h1)
      · exact (digit_facts hx).1 h1
      · exact (digit_facts hx).2.1 h1
    have htw : ((x :: d') ++ '.' :: f).takeWhile Char.isDigit = x :: d' :=
      takeWhile_append_cons (by decide) _ f h
    have hdw : ((x :: d') ++ '.' :: f).dropWhile Char.isDigit = '.' :: f :=
      dropWhile_append_cons (by decide) _ f h
    simp only [parseFloat, hstrip, hsg, hds, htw, hdw, List.headD_cons,
      if_true, List.tail_cons]
    rw [takeWhile_all _ hfd, dropWhile_all _ hfd]
    rw [if_neg (by simp : ¬((x :: d' : Str) = [] ∧ f = []))]
    rw [if_pos rfl]
    norm_num


lemma commaToDot_append (x y : Str) :
    commaToDot (x ++ y) = commaToDot x ++ commaToDot y :=
  List.map_append _ x y

lemma commaToDot_cons (c : Char) (s : Str) :
    commaToDot (c :: s) = (if c = ',' then '.' else c) :: commaToDot s := rfl

lemma cleaned_price_pattern {a b c : Str} (hc : c ≠ [])
    (hda : ∀ x ∈ a, x.isDigit = true) (hdb : ∀ x ∈ b, x.isDigit = true)
    (hdc : ∀ x ∈ c, x.isDigit = true) :
    cleaned_price (a ++ '.' :: b ++ ',' :: c ++ [' ', 'T', 'L']) =
      (a ++ b) ++ '.' :: c := by
  have hP : a ++ '.' :: b ++ ',' :: c ++ [' ', 'T', 'L'] =
      (a ++ '.' :: b ++ ',' :: c) ++ [' ', 'T', 'L'] := by
    simp [List.append_assoc]
  have hmem : ∀ x ∈ a ++ '.' :: b ++ ',' :: c,
      x.isDigit = true ∨ x = '.' ∨ x = ',' := by
    intro x hx
    rcases List.mem_append.mp hx with hx | hx
    · rcases List.mem_append.mp hx with hx | hx
      · exact Or.inl (hda x hx)
      · rcases List.mem_cons.mp hx with rfl | hx
        · exact Or.inr (Or.inl rfl)
        · exact Or.inl (hdb x hx)
    · rcases List.mem_cons.mp hx with rfl | hx
      · exact Or.inr (Or.inr rfl)
      · exact Or.inl (hdc x hx)
  have hnospace : ∀ x ∈ a ++ '.' :: b ++ ',' :: c, ¬x = ' ' := by
    intro x hx
    rcases hmem x hx with h | rfl | rfl
    · exact ne_of_isDigit h (by decide)
    · decide
    · decide
  have hnows : ∀ x ∈ a ++ '.' :: b ++ ',' :: c, isSpaceC x = false := by
    intro x hx
    rcases hmem x hx with h | rfl | rfl
    · exact isDigit_not_space h
    · decide
    · decide
  have hconv : commaToDot (a ++ '.' :: b ++ ',' :: c) =
      a ++ '.' :: b ++ '.' :: c := by
    rw [commaToDot_append, commaToDot_append, commaToDot_cons, commaToDot_cons]
    rw [commaToDot_of_no_comma fun x hx => (digit_facts (hda x hx)).2.2.2.1]
    rw [commaToDot_of_no_comma fun x hx => (digit_facts (hdb x hx)).2.2.2.1]
    rw [commaToDot_of_no_comma fun x hx => (digit_facts (hdc x hx)).2.2.2.1]
    norm_num
  have hsplit : splitOnC '.' (a ++ '.' :: b ++ '.' :: c) = [a, b, c] := by
    have hre : a ++ '.' :: b ++ '.' :: c = a ++ '.' :: (b ++ '.' :: c) := by
      simp [List.append_assoc]
    have h1 : splitOnC '.' (a ++ '.' :: (b ++ '.' :: c)) =
        a :: splitOnC '.' (b ++ '.' :: c) :=
      splitOnC_append _ _ fun x hx => (digit_facts (hda x hx)).2.2.1
    have h2 : splitOnC '.' (b ++ '.' :: c) = b :: splitOnC '.' c :=
      splitOnC_append _ _ fun x hx => (digit_facts (hdb x hx)).2.2.1
    have h3 : splitOnC '.' c = [c] :=
      splitOnC_no_sep fun x hx => (digit_facts (hdc x hx)).2.2.1
    rw [hre, h1, h2, h3]
  simp only [cleaned_price]
  rw [hP, removeTL_append hnospace, pyStrip_of_no_space hnows, hconv, hsplit]
  simp

lemma parse_price_pattern {a b c : Str} (ha : a ≠ []) (hb : b ≠ []) (hc : c ≠ [])
    (hda : ∀ x ∈ a, x.isDigit = true) (hdb : ∀ x ∈ b, x.isDigit = true)
    (hdc : ∀ x ∈ c, x.isDigit = true) :
    parse_price (a ++ '.' :: b ++ ',' :: c ++ [' ', 'T', 'L']) =
      (digitsVal (a ++ b) : ℚ) + (digitsVal c : ℚ) / (10 : ℚ) ^ c.length := by
  have hne : a ++ '.' :: b ++ ',' :: c ++ [' ', 'T', 'L'] ≠ [] := by
    simp [ha]
  have hab : a ++ b ≠ [] := fun h => ha (List.append_eq_nil.mp h).1
  have hdab : ∀ x ∈ a ++ b, x.isDigit = true := by
    intro x hx
    rcases List.mem_append.mp hx with hx | hx
    · exact hda x hx
    · exact hdb x hx
  unfold parse_price
  rw [if_neg hne, cleaned_price_pattern hc hda hdb hdc,
    parseFloat_digits_dot hab hc hdab hdc]


/-- C1: for every well-formed price string of the pattern
digits `.` digits `,` digits `" TL"`, `parse_price` returns the numeric
value with the thousands-separator dot removed and the comma read as the
decimal point (the algorithm strips `" TL"`, turns commas into dots,
splits on dots, and re-joins all but the last segment as the integer
part, joined to the last segment by a single dot, then parses a float);
moreover the four concrete examples of the specification hold. -/
theorem parse_price_well_formed :
    (∀ a b c : Str, a ≠ [] → b ≠ [] → c ≠ [] →
      (∀ x ∈ a, x.isDigit = true) → (∀ x ∈ b, x.isDigit = true) →
      (∀ x ∈ c, x.isDigit = true) →
      parse_price (a ++ '.' :: b ++ ',' :: c ++ [' ', 'T', 'L']) =
        (digitsVal (a ++ b) : ℚ) + (digitsVal c : ℚ) / (10 : ℚ) ^ c.length)
    ∧ parse_price (chars "43.990,00 TL") = 43990
    ∧ parse_price (chars "") = 0
    ∧ parse_price (chars "abc") = 0
    ∧ parse_price (chars "100") = 100 := by
  refine ⟨fun a b c ha hb hc hda hdb hdc =>
    parse_price_pattern ha hb hc hda hdb hdc, ?_, ?_, ?_, ?_⟩
  · have h := @parse_price_pattern (chars "43") (chars "990")
      (chars "00") (by decide) (by decide) (by decide)
      (by decide) (by decide) (by decide)
    have heq : chars "43" ++ '.' :: chars "990" ++ ',' :: chars "00" ++
        [' ', 'T', 'L'] = chars "43.990,00 TL" := by decide
    rw [heq] at h
    rw [h, show digitsVal (chars "43" ++ chars "990") = 43990 from by decide,
      show digitsVal (chars "00") = 0 from by decide,
      show (chars "00").length = 2 from by decide]
    norm_num
  · have h : chars "" = ([] : Str) := rfl
    rw [h]
    simp [parse_price]
  · unfold parse_price
    rw [if_neg (by decide), show parseFloat (cleaned_price (chars "abc")) = none
      from by decide]
  · have hcl : cleaned_price (chars "100") = chars "100" := by decide
    unfold parse_price
    rw [if_neg (by decide), hcl, parseFloat_digits (by decide) (by decide),
      show digitsVal (chars "100") = 100 from by decide]
    norm_num

/-- Witness for C1: the general pattern theorem applied to the concrete
well-formed input `"1.234,56 TL"`. -/
theorem parse_price_well_formed_witness :
    parse_price (chars "1" ++ '.' :: chars "234" ++ ',' :: chars "56" ++
        [' ', 'T', 'L']) =
      (digitsVal (chars "1" ++ chars "234") : ℚ) +
        (digitsVal (chars "56") : ℚ) / (10 : ℚ) ^ (chars "56").length :=
  parse_price_well_formed.1 _ _ _ (by decide) (by decide) (by decide)
    (by decide) (by decide) (by decide)

/-- C9: `parse_price` is total — the only exception the `float()` call can
raise is the `ValueError` that the handler catches, so the
exception-explicit model always returns `ok` of the plain model's
value — and any parse failure yields `0`. -/
theorem parse_price_never_raises : ∀ s : Str,
    parse_price_exc s = .ok (parse_price s)
    ∧ (parseFloat (cleaned_price s) = none → parse_price s = 0) := by
  intro s
  constructor
  · unfold parse_price_exc parse_price floatOrError
    by_cases h : s = []
    · simp [h]
    · rw [if_neg h, if_neg h]
      cases parseFloat (cleaned_price s) <;> simp
  · intro h
    unfold parse_price
    by_cases hs : s = [] <;> simp [hs, h]

/-- Witness for C9: the malformed input `"abc"` fails to parse and is
normalised to `0`, and the exception-explicit model returns `ok`. -/
theorem parse_price_never_raises_witness :
    parse_price_exc (chars "abc") = .ok (parse_price (chars "abc"))
    ∧ parse_price (chars "abc") = 0 :=
  ⟨(parse_price_never_raises (chars "abc")).1,
   (parse_price_never_raises (chars "abc")).2 (by decide)⟩


/-- Decomposition of `compute_base_score` into its four independent,
order-insensitive contributions. -/
lemma compute_base_score_eq (h : Hotel) :
    compute_base_score h =
      (if containsSub (chars "Risksiz rezervasyon") h.cancel_policy then (1 : ℚ) else 0)
      + (if h.recomended_hotel.isSome then (1 : ℚ) else 0)
      + (if h.hotel_features ≠ [] then
          (1 / 20 : ℚ) * (splitOnC ',' h.hotel_features).length else 0)
      + (if containsSub (chars "ultra her şey dahil")
            (pyLower (pyStrip h.accommodation_types)) then (2 : ℚ)
        else if containsSub (chars "her şey dahil")
            (pyLower (pyStrip h.accommodation_types)) then 3 / 2
        else if containsSub (chars "yarım pansiyon")
            (pyLower (pyStrip h.accommodation_types)) then 1
        else if containsSub (chars "oda kahvaltı")
            (pyLower (pyStrip h.accommodation_types)) then 1 / 2
        else if containsSub (chars "sadece oda")
            (pyLower (pyStrip h.accommodation_types)) then 3 / 10
        else 0) := by
  unfold compute_base_score
  simp only [List.length_map]
  split_ifs <;> ring


/-- C4: `compute_base_score` is the sum of four independent contributions —
`+1` for a cancellation policy containing "Risksiz rezervasyon", `+1` for
a non-null recommendation marker, `+1/20` per comma-separated feature
token of a non-empty feature string, and the first-match accommodation
bonus on the lower-cased trimmed category text — and the specification's
concrete example scores exactly `41/10 = 4.10`. -/
theorem compute_base_score_spec :
    (∀ h : Hotel, compute_base_score h =
      (if containsSub (chars "Risksiz rezervasyon") h.cancel_policy then (1 : ℚ) else 0)
      + (if h.recomended_hotel.isSome then (1 : ℚ) else 0)
      + (if h.hotel_features ≠ [] then
          (1 / 20 : ℚ) * (splitOnC ',' h.hotel_features).length else 0)
      + (if containsSub (chars "ultra her şey dahil")
            (pyLower (pyStrip h.accommodation_types)) then (2 : ℚ)
        else if containsSub (chars "her şey dahil")
            (pyLower (pyStrip h.accommodation_types)) then 3 / 2
        else if containsSub (chars "yarım pansiyon")
            (pyLower (pyStrip h.accommodation_types)) then 1
        else if containsSub (chars "oda kahvaltı")
            (pyLower (pyStrip h.accommodation_types)) then 1 / 2
        else if containsSub (chars "sadece oda")
            (pyLower (pyStrip h.accommodation_types)) then 3 / 10
        else 0))
    ∧ compute_base_score
        { accommodation_types := chars "Ultra Her Şey Dahil"
          hotel_features := chars "Wifi, Pool"
          cancel_policy := chars "Risksiz rezervasyon dahil"
          recomended_hotel := some (chars "x") } = 41 / 10 := by
  refine ⟨compute_base_score_eq, ?_⟩
  rw [compute_base_score_eq]
  rw [if_pos (by decide), if_pos (by decide), if_pos (by decide),
    if_pos (by decide),
    show (splitOnC ',' (chars "Wifi, Pool")).length = 2 from by decide]
  norm_num

/-- C10: for a non-empty feature string the feature contribution of
`compute_base_score` is `1/20` times the comma count plus one — split
tokens are counted even when empty after trimming — and only the
exactly-empty string contributes nothing; concretely `","` and
`"Wifi,"` each contribute `2/20 = 1/10`, the same as `"Wifi, Pool"`. -/
theorem compute_base_score_feature_count :
    (∀ url name price loc accom cin cout fs cp rec, fs ≠ [] →
      compute_base_score ⟨url, name, price, loc, accom, cin, cout, fs, cp, rec⟩ =
        compute_base_score ⟨url, name, price, loc, accom, cin, cout, [], cp, rec⟩
          + (1 / 20 : ℚ) * (fs.count ',' + 1))
    ∧ compute_base_score { hotel_features := chars "," } = 1 / 10
    ∧ compute_base_score { hotel_features := chars "Wifi," } = 1 / 10
    ∧ compute_base_score { hotel_features := chars "Wifi, Pool" } = 1 / 10
    ∧ compute_base_score { hotel_features := [] } = 0 := by
  refine ⟨?_, ?_, ?_, ?_, ?_⟩
  · intro url name price loc accom cin cout fs cp rec hf
    rw [compute_base_score_eq, compute_base_score_eq]
    simp only
    rw [if_pos hf, if_neg (show ¬(([] : Str) ≠ []) from by simp), length_splitOnC]
    push_cast
    ring
  · rw [compute_base_score_eq]
    rw [if_neg (by decide), if_neg (by decide), if_pos (by decide),
      show (splitOnC ',' (chars ",")).length = 2 from by decide]
    rw [if_neg (by decide), if_neg (by decide), if_neg (by decide),
      if_neg (by decide), if_neg (by decide)]
    norm_num
  · rw [compute_base_score_eq]
    rw [if_neg (by decide), if_neg (by decide), if_pos (by decide),
      show (splitOnC ',' (chars "Wifi,")).length = 2 from by decide]
    rw [if_neg (by decide), if_neg (by decide), if_neg (by decide),
      if_neg (by decide), if_neg (by decide)]
    norm_num
  · rw [compute_base_score_eq]
    rw [if_neg (by decide), if_neg (by decide), if_pos (by decide),
      show (splitOnC ',' (chars "Wifi, Pool")).length = 2 from by decide]
    rw [if_neg (by decide), if_neg (by decide), if_neg (by decide),
      if_neg (by decide), if_neg (by decide)]
    norm_num
  · rw [compute_base_score_eq]
    rw [if_neg (by decide), if_neg (by decide), if_neg (by decide)]
    rw [if_neg (by decide), if_neg (by decide), if_neg (by decide),
      if_neg (by decide), if_neg (by decide)]
    norm_num

/-- Witness for C10: the feature-count equation applied to the concrete
feature string `"Wifi, Pool"`. -/
theorem compute_base_score_feature_count_witness :
    compute_base_score ⟨[], none, [], none, [], none, none,
        chars "Wifi, Pool", [], none⟩ =
      compute_base_score ⟨[], none, [], none, [], none, none, [], [], none⟩
        + (1 / 20 : ℚ) * ((chars "Wifi, Pool").count ',' + 1) :=
  compute_base_score_feature_count.1 [] none [] none [] none none
    (chars "Wifi, Pool") [] none (by decide)

/-- C2: `compute_final_score` divides the base score by the parsed price
when that price is strictly positive and by `1` otherwise, so the
divisor is never zero and an unparsable or non-positive price leaves
the final score equal to the base score; in particular a `"0 TL"`
price yields exactly the base score. -/
theorem compute_final_score_spec :
    (∀ h : Hotel,
      compute_final_score h =
        (if parse_price h.price ≤ 0 then compute_base_score h
        else compute_base_score h / parse_price h.price)
      ∧ (if parse_price h.price ≤ 0 then (1 : ℚ) else parse_price h.price) ≠ 0)
    ∧ compute_final_score { price := chars "0 TL" } =
        compute_base_score { price := chars "0 TL" } := by
  have hmain : ∀ h : Hotel,
      compute_final_score h =
        (if parse_price h.price ≤ 0 then compute_base_score h
        else compute_base_score h / parse_price h.price)
      ∧ (if parse_price h.price ≤ 0 then (1 : ℚ) else parse_price h.price) ≠ 0 := by
    intro h
    constructor
    · simp only [compute_final_score]
      split_ifs with hp
      · exact div_one _
      · rfl
    · split_ifs with hp
      · exact one_ne_zero
      · exact fun h0 => hp (le_of_eq h0)
  refine ⟨hmain, ?_⟩
  have hp : parse_price (chars "0 TL") = 0 := by
    unfold parse_price
    rw [if_neg (by decide),
      show cleaned_price (chars "0 TL") = chars "0" from by decide,
      parseFloat_digits (by decide) (by decide),
      show digitsVal (chars "0") = 0 from by decide]
    norm_num
  rw [(hmain _).1]
  rw [if_pos (by rw [hp])]


/-- The descending-score comparison is transitive. -/
lemma sortLe_trans : ∀ a b c : ScoredHotel,
    sortLe a b → sortLe b c → sortLe a c := by
  intro a b c hab hbc
  simp only [sortLe, decide_eq_true_eq] at *
  exact le_trans hbc hab

/-- The descending-score comparison is total. -/
lemma sortLe_total : ∀ a b : ScoredHotel, sortLe a b || sortLe b a := by
  intro a b
  simp only [sortLe]
  rcases le_total a.2 b.2 with h | h <;> simp [h]

/-- C3: the finalisation step of the pipeline emits at most 10 records;
when fewer than 10 were collected it emits all of them; the output is
sorted descending by final score; the sort is stable — for each score
value the records carrying it appear in the same order as in the
collected (scored) sequence, and the truncated output preserves that
relative order as a sublist. -/
theorem close_spider_spec : ∀ hotels : List Hotel,
    (close_spider hotels).length ≤ 10
    ∧ (hotels.length < 10 → (close_spider hotels).length = hotels.length)
    ∧ (close_spider hotels).Pairwise (fun a b => b.2 ≤ a.2)
    ∧ (∀ q : ℚ,
        ((score_all hotels).mergeSort sortLe).filter (fun s => decide (s.2 = q)) =
          (score_all hotels).filter (fun s => decide (s.2 = q)))
    ∧ (∀ q : ℚ,
        List.Sublist ((close_spider hotels).filter fun s => decide (s.2 = q))
          ((score_all hotels).filter fun s => decide (s.2 = q))) := by
  intro hotels
  have hlen : (close_spider hotels).length = min 10 hotels.length := by
    unfold close_spider
    rw [List.length_take, List.length_mergeSort]
    unfold score_all
    rw [List.length_map]
  have hstab : ∀ q : ℚ,
      ((score_all hotels).mergeSort sortLe).filter (fun s => decide (s.2 = q)) =
        (score_all hotels).filter (fun s => decide (s.2 = q)) := by
    intro q
    have hF : ((score_all hotels).filter fun s => decide (s.2 = q)).Pairwise
        (fun a b => sortLe a b = true) := by
      apply List.pairwise_of_forall_mem_list
      intro a ha b hb
      have ha2 : a.2 = q := of_decide_eq_true (List.mem_filter.mp ha).2
      have hb2 : b.2 = q := of_decide_eq_true (List.mem_filter.mp hb).2
      simp [sortLe, ha2, hb2]
    have hsubl : List.Sublist ((score_all hotels).filter fun s => decide (s.2 = q))
        ((score_all hotels).mergeSort sortLe) :=
      List.sublist_mergeSort sortLe_trans sortLe_total hF
        (List.filter_sublist (score_all hotels))
    have h1 : (((score_all hotels).filter fun s => decide (s.2 = q)).filter
        fun s => decide (s.2 = q)) =
        (score_all hotels).filter fun s => decide (s.2 = q) :=
      List.filter_eq_self.mpr fun a ha => (List.mem_filter.mp ha).2
    have h2 : List.Sublist ((score_all hotels).filter fun s => decide (s.2 = q))
        (((score_all hotels).mergeSort sortLe).filter fun s => decide (s.2 = q)) := by
      have := hsubl.filter (fun s => decide (s.2 = q))
      rwa [h1] at this
    have hperm : List.Perm (((score_all hotels).mergeSort sortLe).filter
          fun s => decide (s.2 = q))
        ((score_all hotels).filter fun s => decide (s.2 = q)) :=
      (List.mergeSort_perm (score_all hotels) sortLe).filter _
    exact (h2.eq_of_length hperm.length_eq.symm).symm
  refine ⟨hlen ▸ min_le_left _ _,
    fun h => hlen.trans (min_eq_right (le_of_lt h)), ?_, hstab, ?_⟩
  · have hs := List.sorted_mergeSort sortLe_trans sortLe_total
      (score_all hotels)
    have ht : (close_spider hotels).Pairwise (fun a b => sortLe a b = true) :=
      hs.sublist (List.take_sublist 10 _)
    exact ht.imp fun hab => of_decide_eq_true hab
  · intro q
    have h3 := (List.take_sublist 10
      ((score_all hotels).mergeSort sortLe)).filter (fun s => decide (s.2 = q))
    rw [hstab q] at h3
    exact h3

/-- Witness for C3: a concrete two-element run keeps both records. -/
theorem close_spider_spec_witness :
    (close_spider [{ price := chars "100" }, { price := chars "200" }]).length =
      ([{ price := chars "100" }, { price := chars "200" }] : List Hotel).length :=
  (close_spider_spec _).2.1 (by decide)


/-- The paging loop reaches the first matching month/year header after
exactly that many next-clicks, for any sufficient fuel. -/
lemma select_dates_loop_go (cal : ℕ → CalHeader) (tm ty : Str) {n : ℕ}
    (hmatch : (cal n).month = tm ∧ (cal n).year = ty)
    (hmin : ∀ m < n, ¬((cal m).month = tm ∧ (cal m).year = ty)) :
    ∀ fuel, ∀ i ≤ n, n < i + fuel → select_dates_loop cal tm ty fuel i = some n := by
  intro fuel
  induction fuel with
  | zero => intro i h1 h2; omega
  | succ f ih =>
    intro i h1 h2
    by_cases hij : i = n
    · subst hij
      simp only [select_dates_loop]
      rw [if_pos hmatch]
    · have hi : i < n := lt_of_le_of_ne h1 hij
      simp only [select_dates_loop]
      rw [if_neg (hmin i hi)]
      exact ih (i + 1) hi (by omega)

/-- C6: the month-paging loop of `select_dates` halts exactly when some
reached header equals the target month and year under string equality —
it then stops at the first such header, having clicked next once per
skipped month — and when no header ever matches, it runs forever (no
fuel makes it return). -/
theorem select_dates_loop_spec : ∀ (cal : ℕ → CalHeader) (tm ty : Str),
    (∀ n, ((cal n).month = tm ∧ (cal n).year = ty) →
      (∀ m < n, ¬((cal m).month = tm ∧ (cal m).year = ty)) →
      ∀ fuel, n < fuel → select_dates_loop cal tm ty fuel 0 = some n)
    ∧ ((∀ n, ¬((cal n).month = tm ∧ (cal n).year = ty)) →
      ∀ fuel i, select_dates_loop cal tm ty fuel i = none) := by
  intro cal tm ty
  constructor
  · intro n hmatch hmin fuel hfuel
    exact select_dates_loop_go cal tm ty hmatch hmin fuel 0 (Nat.zero_le n) (by omega)
  · intro hnone fuel
    induction fuel with
    | zero => intro i; rfl
    | succ f ih =>
      intro i
      simp only [select_dates_loop]
      rw [if_neg (hnone i)]
      exact ih (i + 1)

/-- Witness for C6: a calendar that shows the target in month 2 halts
after 2 clicks; a calendar that never shows it never halts. -/
theorem select_dates_loop_spec_witness :
    select_dates_loop
      (fun n => if n = 2 then ⟨chars "Ağustos", chars "2025"⟩
        else ⟨chars "Temmuz", chars "2025"⟩)
      (chars "Ağustos") (chars "2025") 5 0 = some 2
    ∧ select_dates_loop (fun _ => ⟨chars "Temmuz", chars "2025"⟩)
      (chars "Ağustos") (chars "2025") 7 3 = none :=
  ⟨(select_dates_loop_spec _ _ _).1 2 (by decide) (by decide) 5 (by decide),
   (select_dates_loop_spec _ _ _).2 (fun n h => absurd h.1 (by decide)) 7 3⟩


/-- The scroll loop stops immediately when the element is already in view. -/
lemma scrollGo_of_inView {inView : ℕ → Bool} {fuel count : ℕ} (hf : 0 < fuel)
    (h : inView count = true) : scrollGo inView fuel count = count := by
  cases fuel with
  | zero => omega
  | succ f => simp [scrollGo, h]

/-- A found element that is in view without scrolling is returned at once. -/
lemma scroll_until_of_inView0 {inView : ℕ → Bool} (h0 : inView 0 = true) :
    scroll_until_element_visible true inView 550 50 = some 0 := by
  unfold scroll_until_element_visible
  rw [if_pos rfl, scrollGo_of_inView (by norm_num) h0, if_pos h0]

/-- The scroll loop exhausts its fuel when the element never comes into view. -/
lemma scrollGo_all_false {inView : ℕ → Bool} :
    ∀ fuel count, (∀ n ≤ count + fuel, inView n = false) →
      scrollGo inView fuel count = count + fuel
  | 0, count, _ => by simp [scrollGo]
  | f + 1, count, h => by
    rw [scrollGo, if_neg (by rw [h count (by omega)]; simp)]
    have := scrollGo_all_false f (count + 1) fun n hn => h n (by omega)
    rw [this]
    omega

/-- Traversal lemma for the loader loop: if every iteration before `j`
finds the status in view, sees no completion phrase and clicks
successfully, and the loop halts at iteration `j` returning its click
count, then from iteration `i ≤ j` with `c` clicks so far it returns
`c + (j - i)`. -/
lemma loader_run (env : LoaderEnv) (j : ℕ)
    (hcont : ∀ i < j, env.found i = true ∧ env.inView i 0 = true ∧
      containsSub completionPhrase (pyLower (pyStrip (env.text i))) = false ∧
      env.clickOk i = true)
    (hhalt : ∀ fuel c,
      scroll_and_click_until_all_displayed env (fuel + 1) j c = some c) :
    ∀ fuel, ∀ i ≤ j, j < i + fuel → ∀ c,
      scroll_and_click_until_all_displayed env fuel i c = some (c + (j - i)) := by
  intro fuel
  induction fuel with
  | zero => intro i h1 h2; omega
  | succ f ih =>
    intro i h1 h2 c
    by_cases hij : i = j
    · subst hij
      simpa using hhalt f c
    · have hi : i < j := lt_of_le_of_ne h1 hij
      obtain ⟨hfo, hv, hp, hc⟩ := hcont i hi
      simp only [scroll_and_click_until_all_displayed]
      rw [hfo, scroll_until_of_inView0 hv]
      simp only [hp, Bool.false_eq_true, if_false, hc, if_true]
      rw [ih (i + 1) hi (by omega) (c + 1)]
      congr 1
      omega

/-- C7: when the first status text whose trimmed, case-folded form
contains the completion phrase appears at iteration `j` (0-based) and
every lookup and click succeeds, the loader clicks load-more exactly
`j` times and halts; the synthetic run
`["loading", "loading", "tamamını görüntülediniz"]` performs exactly 2
activations. -/
theorem loader_click_count :
    (∀ (env : LoaderEnv) (j : ℕ),
      (∀ i, env.found i = true) → (∀ i n, env.inView i n = true) →
      (∀ i, env.clickOk i = true) →
      (∀ i < j, containsSub completionPhrase (pyLower (pyStrip (env.text i))) = false) →
      containsSub completionPhrase (pyLower (pyStrip (env.text j))) = true →
      ∀ fuel, j < fuel →
        scroll_and_click_until_all_displayed env fuel 0 0 = some j)
    ∧ scroll_and_click_until_all_displayed
        { found := fun _ => true, inView := fun _ _ => true,
          clickOk := fun _ => true,
          text := fun i => if i = 2 then chars "tamamını görüntülediniz"
            else chars "loading" } 5 0 0 = some 2 := by
  constructor
  · intro env j hfo hv hc hpre hj fuel hfuel
    have hhalt : ∀ f c,
        scroll_and_click_until_all_displayed env (f + 1) j c = some c := by
      intro f c
      simp only [scroll_and_click_until_all_displayed]
      rw [hfo j, scroll_until_of_inView0 (hv j 0)]
      simp only [hj, if_true]
    have := loader_run env j (fun i hi => ⟨hfo i, hv i 0, hpre i hi, hc i⟩)
      hhalt fuel 0 (by omega) (by omega) 0
    simpa using this
  · decide

/-- Witness for C7: the general count theorem applied to the synthetic
three-status run, halting after exactly 2 clicks. -/
theorem loader_click_count_witness :
    scroll_and_click_until_all_displayed
      { found := fun _ => true, inView := fun _ _ => true,
        clickOk := fun _ => true,
        text := fun i => if i = 2 then chars "Tamamını görüntülediniz"
          else chars "loading" } 4 0 0 = some 2 :=
  loader_click_count.1 _ 2 (fun _ => rfl) (fun _ _ => rfl) (fun _ => rfl)
    (by decide) (by decide) 4 (by decide)


/-- C8: the loader loop halts gracefully in every stuck case: a missing
status element makes the scroll helper return nothing; a status element
that never enters the viewport within the 50 bounded scroll attempts of
550 pixels makes it return nothing; and when the scroll helper returns
nothing at some iteration — or the load-more click fails there — the
loop breaks, returning the clicks performed so far, so the listings
already rendered remain available. -/
theorem loader_stuck_spec :
    (∀ (inView : ℕ → Bool) (step maxs : ℕ),
      scroll_until_element_visible false inView step maxs = none)
    ∧ (∀ inView : ℕ → Bool, (∀ n ≤ 50, inView n = false) →
      scroll_until_element_visible true inView 550 50 = none)
    ∧ (∀ (env : LoaderEnv) (j : ℕ),
      (∀ i < j, env.found i = true ∧ env.inView i 0 = true ∧
        containsSub completionPhrase (pyLower (pyStrip (env.text i))) = false ∧
        env.clickOk i = true) →
      scroll_until_element_visible (env.found j) (env.inView j) 550 50 = none →
      ∀ fuel, j < fuel →
        scroll_and_click_until_all_displayed env fuel 0 0 = some j)
    ∧ (∀ (env : LoaderEnv) (j : ℕ),
      (∀ i < j, env.found i = true ∧ env.inView i 0 = true ∧
        containsSub completionPhrase (pyLower (pyStrip (env.text i))) = false ∧
        env.clickOk i = true) →
      env.found j = true → env.inView j 0 = true →
      containsSub completionPhrase (pyLower (pyStrip (env.text j))) = false →
      env.clickOk j = false →
      ∀ fuel, j < fuel →
        scroll_and_click_until_all_displayed env fuel 0 0 = some j) := by
  refine ⟨?_, ?_, ?_, ?_⟩
  · intro inView step maxs
    simp [scroll_until_element_visible]
  · intro inView h
    unfold scroll_until_element_visible
    rw [if_pos rfl]
    rw [scrollGo_all_false 50 0 fun n hn => h n (by omega)]
    simp only [Nat.zero_add]
    rw [h 50 (by omega)]
    simp
  · intro env j hcont hstuck fuel hfuel
    have hhalt : ∀ f c,
        scroll_and_click_until_all_displayed env (f + 1) j c = some c := by
      intro f c
      simp only [scroll_and_click_until_all_displayed]
      rw [hstuck]
    have := loader_run env j hcont hhalt fuel 0 (by omega) (by omega) 0
    simpa using this
  · intro env j hcont hfo hv hp hck fuel hfuel
    have hhalt : ∀ f c,
        scroll_and_click_until_all_displayed env (f + 1) j c = some c := by
      intro f c
      simp only [scroll_and_click_until_all_displayed]
      rw [hfo, scroll_until_of_inView0 hv]
      simp only [hp, Bool.false_eq_true, if_false, hck]
    have := loader_run env j hcont hhalt fuel 0 (by omega) (by omega) 0
    simpa using this

/-- Witness for C8: a status element that never scrolls into view yields
nothing; a run whose status lookup fails at iteration 1, and a run
whose load-more click fails at iteration 1, both halt with the one
click already performed. -/
theorem loader_stuck_spec_witness :
    scroll_until_element_visible true (fun _ => false) 550 50 = none
    ∧ scroll_and_click_until_all_displayed
        { found := fun i => decide (i = 0), inView := fun _ _ => true,
          text := fun _ => chars "loading", clickOk := fun _ => true } 3 0 0 = some 1
    ∧ scroll_and_click_until_all_displayed
        { found := fun _ => true, inView := fun _ _ => true,
          text := fun _ => chars "loading",
          clickOk := fun i => decide (i = 0) } 3 0 0 = some 1 :=
  ⟨loader_stuck_spec.2.1 _ (fun n _ => rfl),
   loader_stuck_spec.2.2.1 _ 1 (by decide) (by decide) 3 (by decide),
   loader_stuck_spec.2.2.2 _ 1 (by decide) rfl rfl (by decide) (by decide)
     3 (by decide)⟩


/-- C5 counterexample: a price-element timeout does NOT merely abandon the
current identifier — the exception propagates out of
`parse_hotel_details` (the wait at jolly_spider.py line 161 is not
guarded) and aborts the whole extraction loop, so the remaining,
perfectly extractable identifier yields nothing, although on its own it
would produce a record. -/
theorem parse_details_timeout_aborts_run :
    parse_details_loop [pageTimeout, pageGood] =
      Except.error ScrapeError.timeoutException
    ∧ (parse_details_loop [pageGood]).isOk = true :=
  ⟨rfl, rfl⟩

/-- C5 amended: when the "Genel Bilgiler" control is absent the extraction
of the current identifier is abandoned (no record) and the run
continues with the remaining identifiers; but when the required price
element does not appear within the bounded wait, the resulting
exception propagates and aborts the loop, abandoning all remaining
identifiers as well. -/
theorem parse_details_error_handling :
    ∀ (p : DetailPage) (rest : List DetailPage),
      (p.generalTab = false → p.price ≠ none → p.cancelElem ≠ none →
        parse_hotel_details p = .ok none
        ∧ parse_details_loop (p :: rest) = parse_details_loop rest)
      ∧ (p.price = none →
        parse_hotel_details p = .error .timeoutException
        ∧ parse_details_loop (p :: rest) = .error .timeoutException) := by
  intro p rest
  constructor
  · intro htab hpr hce
    obtain ⟨pr, hpr'⟩ := Option.ne_none_iff_exists'.mp hpr
    obtain ⟨ce, hce'⟩ := Option.ne_none_iff_exists'.mp hce
    have hd : parse_hotel_details p = .ok none := by
      unfold parse_hotel_details
      rw [hpr', hce', htab]
      simp
    refine ⟨hd, ?_⟩
    simp only [parse_details_loop, hd]
  · intro hpr
    have hd : parse_hotel_details p = .error .timeoutException := by
      unfold parse_hotel_details
      rw [hpr]
    refine ⟨hd, ?_⟩
    simp only [parse_details_loop, hd]

/-- Witness for C5 amended: the tab-less page is skipped and the run goes
on; the timing-out page aborts the run. -/
theorem parse_details_error_handling_witness :
    (parse_hotel_details pageNoTab = .ok none
      ∧ parse_details_loop [pageNoTab, pageGood] = parse_details_loop [pageGood])
    ∧ (parse_hotel_details pageTimeout = .error .timeoutException
      ∧ parse_details_loop [pageTimeout, pageGood] = .error .timeoutException) :=
  ⟨(parse_details_error_handling pageNoTab [pageGood]).1 rfl (by decide) (by decide),
   (parse_details_error_handling pageTimeout [pageGood]).2 rfl⟩


/-- Witness for C4: the contribution decomposition applied to the empty
record. -/
theorem compute_base_score_spec_witness :
    compute_base_score {} =
      (if containsSub (chars "Risksiz rezervasyon") ([] : Str) then (1 : ℚ) else 0)
      + (if (none : Option Str).isSome then (1 : ℚ) else 0)
      + (if ([] : Str) ≠ [] then
          (1 / 20 : ℚ) * (splitOnC ',' ([] : Str)).length else 0)
      + (if containsSub (chars "ultra her şey dahil")
            (pyLower (pyStrip ([] : Str))) then (2 : ℚ)
        else if containsSub (chars "her şey dahil")
            (pyLower (pyStrip ([] : Str))) then 3 / 2
        else if containsSub (chars "yarım pansiyon")
            (pyLower (pyStrip ([] : Str))) then 1
        else if containsSub (chars "oda kahvaltı")
            (pyLower (pyStrip ([] : Str))) then 1 / 2
        else if containsSub (chars "sadece oda")
            (pyLower (pyStrip ([] : Str))) then 3 / 10
        else 0) :=
  compute_base_score_spec.1 {}

/-- Witness for C2: the divisor law applied to the `"0 TL"` record. -/
theorem compute_final_score_spec_witness :
    compute_final_score { price := chars "0 TL" } =
      (if parse_price (chars "0 TL") ≤ 0 then compute_base_score { price := chars "0 TL" }
      else compute_base_score { price := chars "0 TL" } / parse_price (chars "0 TL"))
    ∧ (if parse_price (chars "0 TL") ≤ 0 then (1 : ℚ)
      else parse_price (chars "0 TL")) ≠ 0 :=
  compute_final_score_spec.1 { price := chars "0 TL" }

end JollyScraper
